import Mathlib

/-!
Verification of the training-orchestration core of `src/train.py`
(ViGAT album classification training script).

The embedding mirrors the source:

* `EarlyStopper` and `EarlyStopper.early_stop` embed the class at
  src/train.py:34-53.  Python floats are modelled by `ℚ`; the initial
  best score `-float('inf')` is modelled by `none : Option ℚ`, with the
  two comparisons against it (`score > -inf` always true,
  `score < -inf - d` always false) made explicit in `maxLtScore` and
  `scoreLtMaxSub`.  Python ints (`patience`, `counter`) are `ℤ`.
* `runScores` folds `early_stop` over a list of validation scores,
  collecting the returned `(is_early_stopping, is_save_ckpt)` pairs.
* `Mode`, `Event`, `loopIter` and `runMain` embed the epoch loop of
  `main` (src/train.py:130-159) as the trace of observable actions it
  performs.  The per-epoch validation score is abstracted as an oracle
  `scores : ℕ → ℚ` (the value `validate` returns at a given epoch
  index).  `model.train()` at line 130 and `model.eval()` inside
  `validate` (line 77) are tracked as the `Mode` threaded through the
  loop; the `train` function (lines 55-72) performs no mode call, so
  each iteration records the mode in force when its training pass
  begins.
* `lastSaves` extracts the `epoch` fields successively written to the
  `last-...` checkpoint (the `epoch_cnt = epoch + 1` stored in
  `model_config` at src/train.py:145).
* `directSave` models the file-system effect of
  `torch.save(model_config, path)` at src/train.py:152/155, which
  writes the serialized bytes straight to the target path;
  `specAtomicSave` states, in the spec's words, the
  write-to-temporary-location-then-rename scheme, for comparison.
-/

/-- The early-stopping state machine of src/train.py:34-53.
`max_validation_mAP` starts as `-float('inf')`, modelled by `none`. -/
structure EarlyStopper where
  patience : ℤ
  min_delta : ℚ
  counter : ℤ
  max_validation_mAP : Option ℚ
  threshold : ℚ
deriving DecidableEq, Repr

/-- `validation_mAP > self.max_validation_mAP` (src/train.py:45); a
finite score always exceeds the initial `-float('inf')`. -/
def maxLtScore : Option ℚ → ℚ → Bool
  | none, _ => true
  | some m, s => decide (m < s)

/-- `validation_mAP < self.max_validation_mAP - self.min_delta`
(src/train.py:49); no finite score is below `-float('inf') - d`. -/
def scoreLtMaxSub : Option ℚ → ℚ → ℚ → Bool
  | none, _, _ => false
  | some m, d, s => decide (s < m - d)

/-- `EarlyStopper.early_stop` (src/train.py:42-53), returning the pair
`(is_early_stopping, is_save_ckpt)` together with the updated state. -/
def EarlyStopper.early_stop (self : EarlyStopper) (validation_mAP : ℚ) :
    (Bool × Bool) × EarlyStopper :=
  if self.threshold ≤ validation_mAP then
    ((true, true), self)
  else if maxLtScore self.max_validation_mAP validation_mAP then
    ((false, true),
      { self with max_validation_mAP := some validation_mAP, counter := 0 })
  else if scoreLtMaxSub self.max_validation_mAP self.min_delta validation_mAP then
    if self.patience < self.counter + 1 then
      ((true, false), { self with counter := self.counter + 1 })
    else
      ((false, false), { self with counter := self.counter + 1 })
  else
    ((false, false), self)

/-- Feed a list of validation scores to an `EarlyStopper` in order,
returning the final state and the list of `(stop, save)` results. -/
def runScores (st : EarlyStopper) : List ℚ → EarlyStopper × List (Bool × Bool)
  | [] => (st, [])
  | s :: rest =>
    let r := st.early_stop s
    let rec' := runScores r.2 rest
    (rec'.1, r.1 :: rec'.2)

/-- One step of the running maximum over `Option ℚ` (`none` is `-∞`). -/
def optMax (o : Option ℚ) (s : ℚ) : Option ℚ :=
  match o with
  | none => some s
  | some m => some (max m s)

/-- The model's mode flag: `model.train()` / `model.eval()`. -/
inductive Mode where
  | train : Mode
  | eval : Mode
deriving DecidableEq, Repr

/-- Observable actions of one run of the epoch loop
(src/train.py:131-159), each tagged with `epoch_cnt = epoch + 1`:
the training pass (recording the model mode in force when it starts),
the validation pass, the `early_stop` call with its returned pair, the
unconditional `last` checkpoint write, the conditional `best`
checkpoint write, and the stop message printed before `break`. -/
inductive Event where
  | trainPhase : ℕ → Mode → Event
  | validatePhase : ℕ → Event
  | evalCall : ℕ → Bool → Bool → Event
  | saveLast : ℕ → Event
  | saveBest : ℕ → Event
  | stopMsg : ℕ → Event
deriving DecidableEq, Repr

/-- The loop `for epoch in range(epoch, num_epochs)` body of
src/train.py:131-159, as a trace of `Event`s.  `fuel` is the number of
remaining iterations; `mode` is the model mode in force when the
iteration begins; `validate` switches the model to `Mode.eval`
(src/train.py:77) and nothing switches it back, so the recursive call
continues with `Mode.eval`. -/
def loopIter (scores : ℕ → ℚ) : ℕ → ℕ → Mode → EarlyStopper → List Event
  | _, 0, _, _ => []
  | epoch, fuel + 1, mode, st =>
    Event.trainPhase (epoch + 1) mode ::
    Event.validatePhase (epoch + 1) ::
    Event.evalCall (epoch + 1) (st.early_stop (scores epoch)).1.1
      (st.early_stop (scores epoch)).1.2 ::
    Event.saveLast (epoch + 1) ::
    ((if (st.early_stop (scores epoch)).1.2 then [Event.saveBest (epoch + 1)] else []) ++
      (if (st.early_stop (scores epoch)).1.1 then [Event.stopMsg (epoch + 1)]
       else loopIter scores (epoch + 1) fuel Mode.eval (st.early_stop (scores epoch)).2))

/-- `main` after wiring (src/train.py:128-159): a fresh `EarlyStopper`
(counter `0`, best `-inf`), `model.train()` once before the loop, then
the loop from `start_epoch` (0 for a fresh run, the checkpoint's
`epoch` field on resume, src/train.py:113/121) to `num_epochs - 1`. -/
def runMain (start_epoch num_epochs : ℕ) (patience : ℤ) (min_delta threshold : ℚ)
    (scores : ℕ → ℚ) : List Event :=
  loopIter scores start_epoch (num_epochs - start_epoch) Mode.train
    ⟨patience, min_delta, 0, none, threshold⟩

/-- The `epoch` fields written to the `last-...` checkpoint, in write
order (src/train.py:145/152). -/
def lastSaves (tr : List Event) : List ℕ :=
  tr.filterMap fun e =>
    match e with
    | Event.saveLast n => some n
    | _ => none

/-- The file-system effect of `torch.save(model_config, path)` at
src/train.py:152/155: the serialized bytes are written straight to the
target path (no temporary file, no rename).  `crash = none` models a
completed write; `crash = some b` models the process dying after `b`
bytes have been written over the target, which then holds just that
prefix of the new content.  The third argument is the target's previous
content, which a direct write destroys as soon as it starts. -/
def directSave (content : List ℕ) (crash : Option ℕ) (_old : Option (List ℕ)) :
    Option (List ℕ) :=
  match crash with
  | none => some content
  | some b => some (List.take b content)

/-- Stated from the spec's words for comparison: "atomic replace is
required: write to a temporary location then rename".  A crash anywhere
before the atomic rename leaves the old target untouched; a completed
save installs the new content. -/
def specAtomicSave (content : List ℕ) (crash : Option ℕ) (old : Option (List ℕ)) :
    Option (List ℕ) :=
  match crash with
  | none => some content
  | some _ => old

/-! ### Helper lemmas about `early_stop` -/

theorem early_stop_case_new_max (st : EarlyStopper) (m s : ℚ)
    (hmax : st.max_validation_mAP = some m) (hth : s < st.threshold) (h : m < s) :
    st.early_stop s =
      ((false, true), { st with max_validation_mAP := some s, counter := 0 }) := by
  simp [EarlyStopper.early_stop, hmax, maxLtScore, not_le.2 hth, h]

theorem early_stop_case_regress (st : EarlyStopper) (m s : ℚ)
    (hmax : st.max_validation_mAP = some m) (hth : s < st.threshold)
    (hle : s ≤ m) (h : s < m - st.min_delta) :
    st.early_stop s =
      ((decide (st.patience < st.counter + 1), false),
        { st with counter := st.counter + 1 }) := by
  by_cases hp : st.patience < st.counter + 1 <;>
    simp [EarlyStopper.early_stop, hmax, maxLtScore, scoreLtMaxSub,
      not_le.2 hth, not_lt.2 hle, h, hp]

theorem early_stop_case_plateau (st : EarlyStopper) (m s : ℚ)
    (hmax : st.max_validation_mAP = some m) (hth : s < st.threshold)
    (hle : s ≤ m) (h : m - st.min_delta ≤ s) :
    st.early_stop s = ((false, false), st) := by
  simp [EarlyStopper.early_stop, hmax, maxLtScore, scoreLtMaxSub,
    not_le.2 hth, not_lt.2 hle, not_lt.2 h]

theorem early_stop_case_threshold (st : EarlyStopper) (s : ℚ)
    (h : st.threshold ≤ s) : st.early_stop s = ((true, true), st) := by
  simp [EarlyStopper.early_stop, h]

theorem early_stop_threshold_inv (st : EarlyStopper) (s : ℚ) :
    (st.early_stop s).2.threshold = st.threshold := by
  unfold EarlyStopper.early_stop
  split <;> [skip; split <;> [skip; split <;> [split; skip]]] <;> rfl

theorem early_stop_max_step (st : EarlyStopper) (s : ℚ) :
    (st.early_stop s).2.max_validation_mAP =
      if s < st.threshold then optMax st.max_validation_mAP s
      else st.max_validation_mAP := by
  by_cases h1 : st.threshold ≤ s
  · simp [EarlyStopper.early_stop, h1, not_lt.2 h1]
  · have hlt : s < st.threshold := lt_of_not_le h1
    cases hmax : st.max_validation_mAP with
    | none =>
      simp [EarlyStopper.early_stop, h1, hmax, maxLtScore, hlt, optMax]
    | some m =>
      by_cases h2 : m < s
      · simp [EarlyStopper.early_stop, h1, hmax, maxLtScore, h2, hlt, optMax,
          max_eq_right (le_of_lt h2)]
      · have hopt : optMax (some m) s = some m := by
          simp [optMax, max_eq_left (le_of_not_lt h2)]
        by_cases h3 : s < m - st.min_delta
        · by_cases hp : st.patience < st.counter + 1 <;>
            simp [EarlyStopper.early_stop, h1, hmax, maxLtScore, scoreLtMaxSub,
              h2, h3, hp, hlt, hopt]
        · simp [EarlyStopper.early_stop, h1, hmax, maxLtScore, scoreLtMaxSub,
            h2, h3, hlt, hopt]

theorem runScores_max_running (scores : List ℚ) : ∀ st : EarlyStopper,
    (runScores st scores).1.max_validation_mAP =
      List.foldl optMax st.max_validation_mAP
        (List.filter (fun s => decide (s < st.threshold)) scores) := by
  induction scores with
  | nil => intro st; simp [runScores]
  | cons s rest ih =>
    intro st
    have hfst : (runScores st (s :: rest)).1 = (runScores (st.early_stop s).2 rest).1 := rfl
    rw [hfst, ih (st.early_stop s).2, early_stop_threshold_inv, List.filter_cons]
    by_cases hlt : s < st.threshold
    · have hd : decide (s < st.threshold) = true := by simp [hlt]
      rw [hd, if_pos rfl, List.foldl_cons, early_stop_max_step, if_pos hlt]
    · have hd : decide (s < st.threshold) = false := by simp [hlt]
      rw [hd, early_stop_max_step, if_neg hlt]
      simp

theorem runScores_qualifying (p : ℤ) (d m thr : ℚ) (hd : 0 ≤ d) :
    ∀ (scores : List ℚ) (c : ℤ),
      (∀ s ∈ scores, s < m - d ∧ s < thr) →
      ∀ i : ℕ, i < scores.length →
        ((runScores ⟨p, d, c, some m, thr⟩ scores).2)[i]? =
          some (decide (p < c + (i : ℤ) + 1), false) := by
  intro scores
  induction scores with
  | nil => intro c _ i hi; simp at hi
  | cons s rest ih =>
    intro c h i hi
    have hs := h s (List.mem_cons_self s rest)
    have hle : s ≤ m := le_trans (le_of_lt hs.1) (by linarith)
    have hstep : (⟨p, d, c, some m, thr⟩ : EarlyStopper).early_stop s =
        ((decide (p < c + 1), false), ⟨p, d, c + 1, some m, thr⟩) := by
      have := early_stop_case_regress ⟨p, d, c, some m, thr⟩ m s rfl hs.2 hle hs.1
      simpa using this
    have hsnd : (runScores (⟨p, d, c, some m, thr⟩ : EarlyStopper) (s :: rest)).2 =
        (decide (p < c + 1), false) ::
          (runScores (⟨p, d, c + 1, some m, thr⟩ : EarlyStopper) rest).2 := by
      simp [runScores, hstep]
    rw [hsnd]
    cases i with
    | zero => simp
    | succ j =>
      have hj : j < rest.length := by simpa using hi
      have := ih (c + 1) (fun s' hs' => h s' (List.mem_cons_of_mem _ hs')) j hj
      rw [List.getElem?_cons_succ, this]
      congr 2
      push_cast
      ring_nf

/-! ### Helper lemmas about the epoch loop trace -/

theorem saveLast_iff_trainPhase (scores : ℕ → ℚ) :
    ∀ (fuel epoch : ℕ) (mode : Mode) (st : EarlyStopper) (e : ℕ),
      (Event.saveLast e ∈ loopIter scores epoch fuel mode st ↔
        ∃ md, Event.trainPhase e md ∈ loopIter scores epoch fuel mode st) := by
  intro fuel
  induction fuel with
  | zero => intro epoch mode st e; simp [loopIter]
  | succ f ih =>
    intro epoch mode st e
    have ihh := ih (epoch + 1) Mode.eval ((st.early_stop (scores epoch)).2) e
    cases hstop : (st.early_stop (scores epoch)).1.1 <;>
      cases hsave : (st.early_stop (scores epoch)).1.2 <;>
        simp [loopIter, hstop, hsave] <;> aesop

theorem saveBest_iff_evalCall (scores : ℕ → ℚ) :
    ∀ (fuel epoch : ℕ) (mode : Mode) (st : EarlyStopper) (e : ℕ),
      (Event.saveBest e ∈ loopIter scores epoch fuel mode st ↔
        ∃ b, Event.evalCall e b true ∈ loopIter scores epoch fuel mode st) := by
  intro fuel
  induction fuel with
  | zero => intro epoch mode st e; simp [loopIter]
  | succ f ih =>
    intro epoch mode st e
    have ihh := ih (epoch + 1) Mode.eval ((st.early_stop (scores epoch)).2) e
    cases hstop : (st.early_stop (scores epoch)).1.1 <;>
      cases hsave : (st.early_stop (scores epoch)).1.2 <;>
        simp [loopIter, hstop, hsave] <;> aesop

theorem stopMsg_ends_trace (scores : ℕ → ℚ) :
    ∀ (fuel epoch : ℕ) (mode : Mode) (st : EarlyStopper) (e : ℕ),
      Event.stopMsg e ∈ loopIter scores epoch fuel mode st →
      ∃ (md : Mode) (sv : Bool) (l₁ : List Event),
        loopIter scores epoch fuel mode st =
          l₁ ++ Event.trainPhase e md :: Event.validatePhase e ::
            Event.evalCall e true sv :: Event.saveLast e ::
            ((if sv then [Event.saveBest e] else []) ++ [Event.stopMsg e]) := by
  intro fuel
  induction fuel with
  | zero => intro epoch mode st e h; simp [loopIter] at h
  | succ f ih =>
    intro epoch mode st e h
    cases hstop : (st.early_stop (scores epoch)).1.1 with
    | true =>
      have he : e = epoch + 1 := by
        cases hsave : (st.early_stop (scores epoch)).1.2 <;>
          simp [loopIter, hstop, hsave] at h <;> tauto
      subst he
      refine ⟨mode, (st.early_stop (scores epoch)).1.2, [], ?_⟩
      rw [loopIter]
      simp [hstop]
    | false =>
      have hrec : Event.stopMsg e ∈
          loopIter scores (epoch + 1) f Mode.eval (st.early_stop (scores epoch)).2 := by
        cases hsave : (st.early_stop (scores epoch)).1.2 <;>
          simp [loopIter, hstop, hsave] at h <;> tauto
      obtain ⟨md, sv, l₁, heq⟩ := ih (epoch + 1) Mode.eval _ e hrec
      refine ⟨md, sv, (Event.trainPhase (epoch + 1) mode ::
        Event.validatePhase (epoch + 1) ::
        Event.evalCall (epoch + 1) (st.early_stop (scores epoch)).1.1
          (st.early_stop (scores epoch)).1.2 ::
        Event.saveLast (epoch + 1) ::
        (if (st.early_stop (scores epoch)).1.2 then [Event.saveBest (epoch + 1)] else [])) ++
          l₁, ?_⟩
      rw [loopIter]
      simp only [hstop, Bool.false_eq_true, if_false]
      rw [heq]
      simp [List.append_assoc]

theorem loopIter_head (scores : ℕ → ℚ) (epoch fuel : ℕ) (mode : Mode)
    (st : EarlyStopper) (hf : 1 ≤ fuel) :
    (loopIter scores epoch fuel mode st).head? =
      some (Event.trainPhase (epoch + 1) mode) := by
  cases fuel with
  | zero => omega
  | succ f => rw [loopIter]; rfl

theorem lastSaves_loopIter_succ (scores : ℕ → ℚ) (epoch f : ℕ) (mode : Mode)
    (st : EarlyStopper) :
    lastSaves (loopIter scores epoch (f + 1) mode st) =
      (epoch + 1) ::
        (if (st.early_stop (scores epoch)).1.1 = true then []
         else lastSaves
           (loopIter scores (epoch + 1) f Mode.eval (st.early_stop (scores epoch)).2)) := by
  cases hstop : (st.early_stop (scores epoch)).1.1 <;>
    cases hsave : (st.early_stop (scores epoch)).1.2 <;>
      simp [loopIter, lastSaves, hstop, hsave]

theorem lastSaves_range' (scores : ℕ → ℚ) :
    ∀ (fuel epoch : ℕ) (mode : Mode) (st : EarlyStopper), 1 ≤ fuel →
      ∃ len, 1 ≤ len ∧
        lastSaves (loopIter scores epoch fuel mode st) = List.range' (epoch + 1) len := by
  intro fuel
  induction fuel with
  | zero => intro epoch mode st h; omega
  | succ f ih =>
    intro epoch mode st _
    rw [lastSaves_loopIter_succ]
    cases hstop : (st.early_stop (scores epoch)).1.1 with
    | true => exact ⟨1, le_refl 1, by simp [List.range']⟩
    | false =>
      cases f with
      | zero =>
        refine ⟨1, le_refl 1, ?_⟩
        simp [loopIter, lastSaves, List.range']
      | succ f2 =>
        obtain ⟨len, hlen, heq⟩ :=
          ih (epoch + 1) Mode.eval (st.early_stop (scores epoch)).2 (by omega)
        refine ⟨len + 1, by omega, ?_⟩
        rw [List.range'_succ]
        simp [heq]

/-- Every training pass after the first one of a run begins with the
model still in the inference mode that the previous iteration's
`validate` set: the recursive call of `loopIter` always carries
`Mode.eval`, and nothing restores `Mode.train`. -/
theorem trainPhase_mode_of_mem (scores : ℕ → ℚ) :
    ∀ (fuel epoch : ℕ) (mode : Mode) (st : EarlyStopper) (e : ℕ) (md : Mode),
      Event.trainPhase e md ∈ loopIter scores epoch fuel mode st →
      (e = epoch + 1 ∧ md = mode) ∨ (epoch + 2 ≤ e ∧ md = Mode.eval) := by
  intro fuel
  induction fuel with
  | zero => intro epoch mode st e md h; simp [loopIter] at h
  | succ f ih =>
    intro epoch mode st e md h
    cases hstop : (st.early_stop (scores epoch)).1.1 <;>
      cases hsave : (st.early_stop (scores epoch)).1.2 <;>
        simp [loopIter, hstop, hsave] at h
    case false.false =>
      rcases h with ⟨rfl, rfl⟩ | h
      · exact Or.inl ⟨rfl, rfl⟩
      · rcases ih (epoch + 1) Mode.eval _ e md h with ⟨he, hm⟩ | ⟨he, hm⟩
        · exact Or.inr ⟨by omega, hm⟩
        · exact Or.inr ⟨by omega, hm⟩
    case false.true =>
      rcases h with ⟨rfl, rfl⟩ | h
      · exact Or.inl ⟨rfl, rfl⟩
      · rcases ih (epoch + 1) Mode.eval _ e md h with ⟨he, hm⟩ | ⟨he, hm⟩
        · exact Or.inr ⟨by omega, hm⟩
        · exact Or.inr ⟨by omega, hm⟩
    case true.false => exact Or.inl h
    case true.true => exact Or.inl h

/-! ### Claim theorems -/

/-- Claim C1: for a state with finite best score `m` (counter `c`) and a
score `s` below the threshold, `early_stop` follows the three-way case
split of src/train.py:45-53: if `s > m` it records `s` as the best,
resets the counter and returns `(stop=false, save=true)`; else if
`s < m - min_delta` it increments the counter to `c + 1` and returns
`stop=true` exactly when `c + 1 > patience` (and `save=false` either
way); otherwise (`m - min_delta ≤ s ≤ m`) it returns
`(stop=false, save=false)` leaving the state unchanged. -/
theorem early_stop_subthreshold_cases (st : EarlyStopper) (m s : ℚ)
    (hmax : st.max_validation_mAP = some m) (hth : s < st.threshold) :
    (m < s →
      st.early_stop s =
        ((false, true), { st with max_validation_mAP := some s, counter := 0 }))
    ∧ (s ≤ m → s < m - st.min_delta →
      st.early_stop s =
        ((decide (st.patience < st.counter + 1), false),
          { st with counter := st.counter + 1 }))
    ∧ (m - st.min_delta ≤ s → s ≤ m →
      st.early_stop s = ((false, false), st)) :=
  ⟨early_stop_case_new_max st m s hmax hth,
   fun h1 h2 => early_stop_case_regress st m s hmax hth h1 h2,
   fun h1 h2 => early_stop_case_plateau st m s hmax hth h2 h1⟩

/-- Witness for C1 at the concrete state
`patience=2, min_delta=1, counter=5, best=10, threshold=95` and score
`8`: a regression of more than `min_delta` increments the counter to 6
and stops since `6 > 2`. -/
theorem early_stop_subthreshold_cases_witness :
    (⟨2, 1, 5, some 10, 95⟩ : EarlyStopper).early_stop 8 =
      ((true, false), ⟨2, 1, 6, some 10, 95⟩) := by
  have h := (early_stop_subthreshold_cases ⟨2, 1, 5, some 10, 95⟩ 10 8 rfl
    (by norm_num)).2.1 (by norm_num) (by norm_num)
  simpa using h

/-- Claim C2 counterexample: with `patience=2, min_delta=1,
threshold=95`, the score sequence `[10, 12, 11, 9, 8]` does NOT produce
the claimed decisions `[(F,T), (F,T), (F,F), (F,F), (T,F)]`: the third
score 11 sits exactly at the tolerance boundary `12 - 1`, and
src/train.py:49 uses a strict `<`, so it is a plateau that leaves the
counter untouched. -/
theorem scenario_decisions_ne_claimed :
    (runScores ⟨2, 1, 0, none, 95⟩ [10, 12, 11, 9, 8]).2 ≠
      [(false, true), (false, true), (false, false), (false, false), (true, false)] := by
  norm_num [runScores, EarlyStopper.early_stop, maxLtScore, scoreLtMaxSub]

/-- Claim C2 (amended): with `patience=2, min_delta=1, threshold=95`,
the sequence `[10, 12, 11, 9, 8]` yields decisions
`[(F,T), (F,T), (F,F), (F,F), (F,F)]` with final counter 2 (the third
score is a plateau at the boundary, the fourth and fifth are
regressions), so training does not stop within these five scores; the
best saved score is 12. -/
theorem scenario_decisions :
    (runScores ⟨2, 1, 0, none, 95⟩ [10, 12, 11, 9, 8]).2 =
      [(false, true), (false, true), (false, false), (false, false), (false, false)]
    ∧ (runScores ⟨2, 1, 0, none, 95⟩ [10, 12, 11, 9, 8]).1.counter = 2
    ∧ (runScores ⟨2, 1, 0, none, 95⟩ [10, 12, 11, 9, 8]).1.max_validation_mAP = some 12 := by
  norm_num [runScores, EarlyStopper.early_stop, maxLtScore, scoreLtMaxSub]

/-- Claim C3: from a state with counter 0 and finite best `m`, over any
run of consecutive scores each below `m - min_delta` and below the
threshold, the `i`-th call (0-based) returns
`(stop = decide (patience < i + 1), save = false)`: `stop` is `false`
for the first `patience` calls and `true` for the first time on the
`(patience+1)`-th; with `patience = 0` the very first qualifying
regression stops. -/
theorem patience_budget (p : ℤ) (_hp : 0 ≤ p) (d : ℚ) (hd : 0 ≤ d) (m thr : ℚ)
    (scores : List ℚ) (hq : ∀ s ∈ scores, s < m - d ∧ s < thr) :
    ∀ i : ℕ, i < scores.length →
      ((runScores ⟨p, d, 0, some m, thr⟩ scores).2)[i]? =
        some (decide (p < (i : ℤ) + 1), false) := by
  intro i hi
  have h := runScores_qualifying p d m thr hd scores 0 hq i hi
  rw [show (0 : ℤ) + (i : ℤ) + 1 = (i : ℤ) + 1 by ring] at h
  exact h

/-- Witness for C3 with `patience=1, min_delta=0, best=10,
threshold=95` and qualifying scores `[5, 4]`: the second call (index 1)
is the `(patience+1)`-th regression and returns `stop=true`. -/
theorem patience_budget_witness :
    ((runScores ⟨1, 0, 0, some 10, 95⟩ [5, 4]).2)[1]? = some (true, false) := by
  have h := patience_budget 1 (by norm_num) 0 (by norm_num) 10 95 [5, 4]
    (by intro s hs; simp at hs; rcases hs with rfl | rfl <;> norm_num) 1 (by norm_num)
  simpa using h

/-- Claim C4: after any finite sequence of `early_stop` calls starting
from best `-inf`, the recorded best equals the running maximum (over
`-inf`, i.e. `none`) of exactly the scores strictly below the
threshold; and a single score `≥ threshold` returns
`(stop=true, save=true)` and leaves the whole state (best and counter)
unchanged, regardless of history (src/train.py:43-44). -/
theorem max_tracking_and_threshold (p : ℤ) (d thr : ℚ) (c : ℤ) (scores : List ℚ) :
    (runScores ⟨p, d, c, none, thr⟩ scores).1.max_validation_mAP =
      List.foldl optMax none (List.filter (fun s => decide (s < thr)) scores)
    ∧ ∀ (st : EarlyStopper) (s : ℚ), st.threshold ≤ s →
        st.early_stop s = ((true, true), st) := by
  constructor
  · have h := runScores_max_running scores ⟨p, d, c, none, thr⟩
    simpa using h
  · exact fun st s h => early_stop_case_threshold st s h

/-- Witness for C4 at `threshold=95`, scores `[10, 96, 12]`: the best
tracks the sub-threshold scores only, and the stopper state
`⟨30, 1, 0, none, 95⟩` on score 96 returns `(true, true)` unchanged. -/
theorem max_tracking_and_threshold_witness :
    (runScores ⟨30, 1, 0, none, 95⟩ [10, 96, 12]).1.max_validation_mAP =
      List.foldl optMax none (List.filter (fun s => decide (s < (95 : ℚ))) [10, 96, 12])
    ∧ (⟨30, 1, 0, none, 95⟩ : EarlyStopper).early_stop 96 =
        ((true, true), ⟨30, 1, 0, none, 95⟩) := by
  refine ⟨(max_tracking_and_threshold 30 1 95 0 [10, 96, 12]).1, ?_⟩
  exact (max_tracking_and_threshold 30 1 95 0 ([] : List ℚ)).2 ⟨30, 1, 0, none, 95⟩ 96
    (by show (95 : ℚ) ≤ 96; norm_num)

/-- Claim C5: in every executed iteration of the epoch loop
(src/train.py:131-159) the trace shows Train, then Validate, then the
`early_stop` call, then the unconditional `last` write; the `best`
write happens in an iteration exactly when that iteration's
`early_stop` returned `save=true`; and when the stop signal is set the
iteration still performs the `last` write (and the `best` write when
`save=true`, as on a threshold stop) before the stop message ends the
run. -/
theorem loop_saves_and_stop_order (start_epoch num_epochs : ℕ) (p : ℤ) (d thr : ℚ)
    (scores : ℕ → ℚ) :
    (∀ e, Event.saveLast e ∈ runMain start_epoch num_epochs p d thr scores ↔
        ∃ md, Event.trainPhase e md ∈ runMain start_epoch num_epochs p d thr scores)
    ∧ (∀ e, Event.saveBest e ∈ runMain start_epoch num_epochs p d thr scores ↔
        ∃ b, Event.evalCall e b true ∈ runMain start_epoch num_epochs p d thr scores)
    ∧ (∀ e, Event.stopMsg e ∈ runMain start_epoch num_epochs p d thr scores →
        ∃ (md : Mode) (sv : Bool) (l₁ : List Event),
          runMain start_epoch num_epochs p d thr scores =
            l₁ ++ Event.trainPhase e md :: Event.validatePhase e ::
              Event.evalCall e true sv :: Event.saveLast e ::
              ((if sv then [Event.saveBest e] else []) ++ [Event.stopMsg e])) :=
  ⟨fun e => saveLast_iff_trainPhase scores (num_epochs - start_epoch) start_epoch
      Mode.train ⟨p, d, 0, none, thr⟩ e,
   fun e => saveBest_iff_evalCall scores (num_epochs - start_epoch) start_epoch
      Mode.train ⟨p, d, 0, none, thr⟩ e,
   fun e => stopMsg_ends_trace scores (num_epochs - start_epoch) start_epoch
      Mode.train ⟨p, d, 0, none, thr⟩ e⟩

/-- Witness for C5 on a run whose first score 96 reaches the threshold
95: the stopping iteration's block still contains the `last` (and, the
stop being a threshold stop, the `best`) write before the stop
message. -/
theorem loop_saves_and_stop_order_witness :
    ∃ (md : Mode) (sv : Bool) (l₁ : List Event),
      runMain 0 1 30 0 95 (fun _ => 96) =
        l₁ ++ Event.trainPhase 1 md :: Event.validatePhase 1 ::
          Event.evalCall 1 true sv :: Event.saveLast 1 ::
          ((if sv then [Event.saveBest 1] else []) ++ [Event.stopMsg 1]) := by
  apply (loop_saves_and_stop_order 0 1 30 0 95 (fun _ => 96)).2.2 1
  norm_num [runMain, loopIter, EarlyStopper.early_stop]

/-- Claim C6: when the loop runs at all (`k < num_epochs`, where `k` is
0 for a fresh run or the resume checkpoint's `epoch` field,
src/train.py:113/121), its first iteration is epoch index `k` (tagged
`epoch_cnt = k + 1`, with the pre-loop `model.train()` mode), and the
`epoch` fields written to successive `last` checkpoints are exactly
`k+1, k+2, ...`: they increase by exactly 1 per completed iteration,
and a fresh run's (`k = 0`) first checkpoint carries epoch field 1. -/
theorem resume_epoch_fields (k n : ℕ) (p : ℤ) (d thr : ℚ) (scores : ℕ → ℚ)
    (hk : k < n) :
    (runMain k n p d thr scores).head? = some (Event.trainPhase (k + 1) Mode.train)
    ∧ ∃ len, 1 ≤ len ∧ lastSaves (runMain k n p d thr scores) = List.range' (k + 1) len := by
  constructor
  · exact loopIter_head scores k (n - k) Mode.train ⟨p, d, 0, none, thr⟩ (by omega)
  · exact lastSaves_range' scores (n - k) k Mode.train ⟨p, d, 0, none, thr⟩ (by omega)

/-- Witness for C6: resuming from a checkpoint with epoch field 1 under
a budget of 3 epochs, the first iteration is epoch index 1 and the
saved epoch fields start at 2. -/
theorem resume_epoch_fields_witness :
    (runMain 1 3 30 0 95 (fun _ => 10)).head? = some (Event.trainPhase 2 Mode.train)
    ∧ ∃ len, 1 ≤ len ∧ lastSaves (runMain 1 3 30 0 95 (fun _ => 10)) = List.range' 2 len :=
  resume_epoch_fields 1 3 30 0 95 (fun _ => 10) (by norm_num)

/-- Claim C7 (refutation of atomicity): `torch.save` as called at
src/train.py:152 writes directly to the target path, so a crash after 1
byte of a 3-byte checkpoint leaves the target holding the partial
content `[4]` — the previously valid checkpoint `[1, 2, 3]` is
destroyed and the new content `[4, 5, 6]` is not in place either; the
spec's write-to-temporary-then-rename scheme would have preserved
`[1, 2, 3]`. -/
theorem direct_save_not_crash_atomic :
    directSave [4, 5, 6] (some 1) (some [1, 2, 3]) = some [4]
    ∧ directSave [4, 5, 6] (some 1) (some [1, 2, 3]) ≠ some [1, 2, 3]
    ∧ directSave [4, 5, 6] (some 1) (some [1, 2, 3]) ≠ some [4, 5, 6]
    ∧ specAtomicSave [4, 5, 6] (some 1) (some [1, 2, 3]) = some [1, 2, 3] :=
  ⟨rfl, by decide, by decide, rfl⟩

/-- Claim C8 (refutation): in a 2-epoch run, the second epoch's
training pass begins with the model still in inference mode:
`model.train()` is called only once before the loop (src/train.py:130)
and `validate` calls `model.eval()` (line 77) with nothing switching
back, so the trace contains `trainPhase 2 Mode.eval` and never
`trainPhase 2 Mode.train`. -/
theorem second_epoch_trains_in_inference_mode :
    Event.trainPhase 2 Mode.eval ∈ runMain 0 2 30 0 95 (fun e => (e : ℚ))
    ∧ Event.trainPhase 2 Mode.train ∉ runMain 0 2 30 0 95 (fun e => (e : ℚ)) := by
  norm_num [runMain, loopIter, EarlyStopper.early_stop, maxLtScore, scoreLtMaxSub]
  decide

/-- Claim C9 (refutation): no hyperparameter validation exists —
`EarlyStopper.__init__` (src/train.py:35-40) stores a negative patience
unchecked and `main` starts training normally: with `patience = -1` an
epoch runs and the `last` checkpoint is written. -/
theorem negative_patience_still_trains :
    Event.saveLast 1 ∈ runMain 0 1 (-1) 0 95 (fun _ => 10)
    ∧ runMain 0 1 (-1) 0 95 (fun _ => 10) ≠ [] := by
  norm_num [runMain, loopIter, EarlyStopper.early_stop, maxLtScore]
  decide

/-- Claim C10: a resume checkpoint whose `epoch` field is at least
`num_epochs` makes `range(start_epoch, num_epochs)` empty: the loop
body never runs, so no training or validation pass, no checkpoint
write and no stop message occur — the trace is empty. -/
theorem no_iterations_past_budget (k n : ℕ) (p : ℤ) (d thr : ℚ)
    (scores : ℕ → ℚ) (h : n ≤ k) :
    runMain k n p d thr scores = []
    ∧ ∀ ev : Event, ev ∉ runMain k n p d thr scores := by
  have hz : n - k = 0 := Nat.sub_eq_zero_of_le h
  constructor
  · unfold runMain
    rw [hz]
    rfl
  · intro ev hmem
    unfold runMain at hmem
    rw [hz] at hmem
    simp [loopIter] at hmem

/-- Witness for C10: resuming at epoch field 5 with a budget of 3
epochs executes zero iterations. -/
theorem no_iterations_past_budget_witness :
    runMain 5 3 30 0 95 (fun _ => 10) = []
    ∧ ∀ ev : Event, ev ∉ runMain 5 3 30 0 95 (fun _ => 10) :=
  no_iterations_past_budget 5 3 30 0 95 (fun _ => 10) (by norm_num)
